import Mathlib

/-!
Verification of the per-transaction event buffering and commit/rollback
dispatch mechanism of `TransactionalEntitySubscriberBase` (the core class of
the typeorm-transactional-subscriber package).

The class attaches two hidden fields to the resource manager's query-runner
object: `_transactionalSubscriberStore` (three FIFO lists of buffered
lifecycle events) and `_transactionalSubscriberDepth` (a nested-transaction
depth counter).  Lifecycle events observed while `queryRunner.isTransactionActive`
is true are buffered; otherwise the corresponding `after*Committed` hook of
the subclass is invoked immediately (when the subclass implements it).
`afterTransactionCommit` decrements the depth and, when the resulting depth
is 0, replays the buffer through the implemented hooks in the fixed order
inserted, updated, removed, then clears the buffer; `afterTransactionRollback`
decrements and, at resulting depth 0, clears without replaying.

The embedding below is a direct shallow translation of that class:
mutation of the query-runner fields becomes explicit state passing, the
JavaScript lazy field initialisation (`typeof f !== "number"` / missing
store object) becomes `Option` with a `getD` default, awaited hook calls
become an emitted list of `Call` values together with a boolean recording
whether an awaited hook rejected (a thrown error aborts the in-flight
method exactly where the corresponding `await` sits in the source).
-/

namespace TxSub

/-- The `_transactionalSubscriberStore` object attached to a query runner:
three FIFO lists, one per buffered event category (source lines 151-155).
The store has no list for soft-remove events: the class never creates one. -/
structure TxStore (α : Type) where
  inserted : List α
  updated : List α
  removed : List α
deriving Repr, DecidableEq

/-- The store object freshly created by `getOrCreateTxStore`, and also the
result of the clearing assignments `store.inserted = []` etc. -/
def emptyStore {α : Type} : TxStore α :=
  ⟨[], [], []⟩

/-- The two fields the subscriber lazily attaches to a query runner.
`none` models a field that has not been attached yet. -/
structure QueryRunner (α : Type) where
  store : Option (TxStore α)
  depth : Option Int
deriving Repr, DecidableEq

/-- A fresh query runner: neither subscriber field has been attached. -/
def initialRunner {α : Type} : QueryRunner α :=
  ⟨none, none⟩

/-- An invocation of one of the consumer-implemented `after*Committed`
hooks, with the payload it receives.  `softRemovedC` models the
`afterSoftRemoveCommitted` hook that consumers may define (the sample
application does); whether the base class ever produces such a call is
settled by the theorems below. -/
inductive Call (α : Type) where
  | insertedC (p : α)
  | updatedC (p : α)
  | removedC (p : α)
  | softRemovedC (p : α)
deriving Repr, DecidableEq

/-- Which optional `after*Committed` hooks the concrete subclass implements
(the source probes them with `typeof ... === "function"`). -/
structure HookImpl where
  hasInsert : Bool
  hasUpdate : Bool
  hasRemove : Bool
  hasSoftRemove : Bool
deriving Repr, DecidableEq

/-- A subclass implementing every optional hook. -/
def allHooks : HookImpl :=
  ⟨true, true, true, true⟩

/-- Failure behaviour of the consumer hooks: `fl c = true` means the awaited
hook invocation `c` throws (rejects). -/
def Fails (α : Type) :=
  Call α → Bool

/-- Hooks that never throw. -/
def noFail {α : Type} : Fails α :=
  fun _ => false

/-- Source `incrementTxDepth` (lines 173-179) on a non-null runner: the
`typeof` check initialises a missing counter to 0, then `++`.  The source's
`if (!queryRunner) return;` null guard is modelled at the dispatch level
(`step`), where an absent runner leaves every tracked state untouched. -/
def incrementTxDepth {α : Type} (q : QueryRunner α) : QueryRunner α :=
  { q with depth := some (q.depth.getD 0 + 1) }

/-- Source `decrementTxDepth` (lines 181-190) on a non-null runner:
initialise a missing counter to 0, decrement, then clamp negative values
back to 0. -/
def decrementTxDepth {α : Type} (q : QueryRunner α) : QueryRunner α :=
  let d := if q.depth.getD 0 - 1 < 0 then 0 else q.depth.getD 0 - 1
  { q with depth := some d }

/-- Source `getOrCreateTxDepth` (lines 165-171) on a non-null runner: read
the counter, defaulting a missing field to 0.  (At both call sites the
runner has just been through `decrementTxDepth`, which always leaves the
field set, so the lazy initialisation inside the source function never
fires there.) -/
def getOrCreateTxDepth {α : Type} (q : QueryRunner α) : Int :=
  q.depth.getD 0

/-- Source `getOrCreateTxStore` (lines 146-158) on a non-null runner:
attach a fresh empty store if the field is missing, and return the (shared,
mutable) store.  The pure translation returns the runner with the field
attached together with the store value. -/
def getOrCreateTxStore {α : Type} (q : QueryRunner α) : QueryRunner α × TxStore α :=
  (⟨some (q.store.getD emptyStore), q.depth⟩, q.store.getD emptyStore)

/-- The immediate-dispatch arm shared by `afterInsert` / `afterUpdate` /
`afterRemove`: when no transaction is active, invoke (and await) the
corresponding committed hook if the subclass implements it, else do
nothing.  Returns the calls made and whether the awaited call threw. -/
def immediateDispatch {α : Type} (has : Bool) (mk : α → Call α) (fl : Fails α)
    (p : α) : List (Call α) × Bool :=
  if has then ([mk p], fl (mk p)) else ([], false)

/-- Source `afterInsert` (lines 42-49) for an event whose query runner is
present, with `active = event.queryRunner.isTransactionActive`: if a
transaction is active, `getOrCreateTxStore` then `store.inserted.push(event)`;
otherwise immediate dispatch of `afterInsertCommitted` when implemented. -/
def afterInsert {α : Type} (hk : HookImpl) (fl : Fails α) (q : QueryRunner α)
    (active : Bool) (p : α) : QueryRunner α × List (Call α) × Bool :=
  if active then
    let st := (getOrCreateTxStore q).2
    (⟨some { st with inserted := st.inserted ++ [p] }, q.depth⟩, [], false)
  else
    (q, immediateDispatch hk.hasInsert Call.insertedC fl p)

/-- Source `afterUpdate` (lines 59-66), symmetric to `afterInsert`. -/
def afterUpdate {α : Type} (hk : HookImpl) (fl : Fails α) (q : QueryRunner α)
    (active : Bool) (p : α) : QueryRunner α × List (Call α) × Bool :=
  if active then
    let st := (getOrCreateTxStore q).2
    (⟨some { st with updated := st.updated ++ [p] }, q.depth⟩, [], false)
  else
    (q, immediateDispatch hk.hasUpdate Call.updatedC fl p)

/-- Source `afterRemove` (lines 76-83), symmetric to `afterInsert`. -/
def afterRemove {α : Type} (hk : HookImpl) (fl : Fails α) (q : QueryRunner α)
    (active : Bool) (p : α) : QueryRunner α × List (Call α) × Bool :=
  if active then
    let st := (getOrCreateTxStore q).2
    (⟨some { st with removed := st.removed ++ [p] }, q.depth⟩, [], false)
  else
    (q, immediateDispatch hk.hasRemove Call.removedC fl p)

/-- The sequence of awaited hook calls the commit replay makes for a store:
the three `for ... await` loops of `afterTransactionCommit` (lines 98-112),
each guarded by the `typeof` probe of the corresponding hook, concatenated
in source order: inserted, then updated, then removed.  There is no loop
for soft-removed events in the source. -/
def drainSeq {α : Type} (hk : HookImpl) (st : TxStore α) : List (Call α) :=
  (if hk.hasInsert then st.inserted.map Call.insertedC else [])
    ++ (if hk.hasUpdate then st.updated.map Call.updatedC else [])
    ++ (if hk.hasRemove then st.removed.map Call.removedC else [])

/-- Await the calls one at a time; a throwing call aborts the rest
(fail-fast, since each `await` sits inside the method body with no
`try`/`finally`).  Returns the calls actually invoked (the throwing call
included) and whether one threw. -/
def runCalls {α : Type} (fl : Fails α) : List (Call α) → List (Call α) × Bool
  | [] => ([], false)
  | c :: cs =>
    if fl c then ([c], true)
    else ((runCalls fl cs).1.cons c, (runCalls fl cs).2)

/-- Source `afterTransactionCommit` (lines 92-118) on a non-null runner:
decrement the depth; when the resulting depth is 0, fetch (attaching if
missing) the store, replay it through the implemented hooks, and clear the
three lists.  The clearing assignments (lines 113-115) sit after the
replay loops with no `try`/`finally`, so a throwing hook aborts the method
before they run: on the throwing branch the store keeps its contents. -/
def afterTransactionCommit {α : Type} (hk : HookImpl) (fl : Fails α)
    (q : QueryRunner α) : QueryRunner α × List (Call α) × Bool :=
  let q1 := decrementTxDepth q
  if getOrCreateTxDepth q1 = 0 then
    let s := getOrCreateTxStore q1
    let r := runCalls fl (drainSeq hk s.2)
    if r.2 then (s.1, r.1, true)
    else ({ s.1 with store := some emptyStore }, r.1, false)
  else
    (q1, [], false)

/-- Source `afterTransactionRollback` (lines 127-138) on a non-null runner:
decrement the depth; when the resulting depth is 0, fetch (attaching if
missing) the store and clear its three lists.  No hook is ever invoked. -/
def afterTransactionRollback {α : Type} (q : QueryRunner α) : QueryRunner α :=
  let q1 := decrementTxDepth q
  if getOrCreateTxDepth q1 = 0 then
    { (getOrCreateTxStore q1).1 with store := some emptyStore }
  else
    q1

/-- Source `afterTransactionStart` (lines 30-32): delegate to
`incrementTxDepth`. -/
def afterTransactionStart {α : Type} (q : QueryRunner α) : QueryRunner α :=
  incrementTxDepth q

/-- One notification delivered by the resource manager, as seen by the
subscriber while we track a single runner.  Lifecycle events carry
`runner : Option Bool`: `none` means `event.queryRunner` is null/undefined,
`some a` means the tracked runner with `isTransactionActive = a`.  Boundary
notifications carry `present : Bool` for the same distinction. -/
inductive Notif (α : Type) where
  | start (present : Bool)
  | insert (p : α) (runner : Option Bool)
  | update (p : α) (runner : Option Bool)
  | remove (p : α) (runner : Option Bool)
  | softRemove (p : α) (runner : Option Bool)
  | commit (present : Bool)
  | rollback (present : Bool)
deriving Repr, DecidableEq

/-- Process one notification against the tracked runner state.  When the
notification's runner is absent, the source methods bail out on their null
guards (`if (!queryRunner) return`, the falsy branch of
`event.queryRunner && ...`, the `return null` of `getOrCreateTxStore`
followed by `if (store)`), so the tracked state is untouched and only the
immediate-dispatch arm of the lifecycle methods can run.  The base class
declares no `afterSoftRemove` lifecycle method at all, so a soft-remove
lifecycle event is never delivered to it: it is a complete no-op. -/
def step {α : Type} (hk : HookImpl) (fl : Fails α) (q : QueryRunner α) :
    Notif α → QueryRunner α × List (Call α) × Bool
  | .start true => (afterTransactionStart q, [], false)
  | .start false => (q, [], false)
  | .insert p (some a) => afterInsert hk fl q a p
  | .insert p none => (q, immediateDispatch hk.hasInsert Call.insertedC fl p)
  | .update p (some a) => afterUpdate hk fl q a p
  | .update p none => (q, immediateDispatch hk.hasUpdate Call.updatedC fl p)
  | .remove p (some a) => afterRemove hk fl q a p
  | .remove p none => (q, immediateDispatch hk.hasRemove Call.removedC fl p)
  | .softRemove _ _ => (q, [], false)
  | .commit true => afterTransactionCommit hk fl q
  | .commit false => (q, [], false)
  | .rollback true => (afterTransactionRollback q, [], false)
  | .rollback false => (q, [], false)

/-- Process a whole trace of notifications, accumulating the hook calls in
order and recording whether any notification's processing threw. -/
def run {α : Type} (hk : HookImpl) (fl : Fails α) (q : QueryRunner α) :
    List (Notif α) → QueryRunner α × List (Call α) × Bool
  | [] => (q, [], false)
  | n :: t =>
    ((run hk fl (step hk fl q n).1 t).1,
      (step hk fl q n).2.1 ++ (run hk fl (step hk fl q n).1 t).2.1,
      (step hk fl q n).2.2 || (run hk fl (step hk fl q n).1 t).2.2)

/-- The subscriber's depth counter as the source reads it: missing field
counts as 0. -/
def depthVal {α : Type} (q : QueryRunner α) : Int :=
  q.depth.getD 0

/-- Total number of buffered events on a runner (0 when the store has not
been attached). -/
def bufLen {α : Type} (q : QueryRunner α) : Nat :=
  match q.store with
  | none => 0
  | some st => st.inserted.length + st.updated.length + st.removed.length

/-- A lifecycle event issued strictly inside a transaction: one of the
three categories the base class buffers, with its payload. -/
inductive TxEvent (α : Type) where
  | ins (p : α)
  | upd (p : α)
  | rem (p : α)
deriving Repr, DecidableEq

/-- The notification a transactional lifecycle event arrives as: runner
present, `isTransactionActive` true. -/
def TxEvent.toNotif {α : Type} : TxEvent α → Notif α
  | .ins p => .insert p (some true)
  | .upd p => .update p (some true)
  | .rem p => .remove p (some true)

/-- Payloads of the insert events of a transactional sequence, in arrival
order. -/
def insOf {α : Type} : List (TxEvent α) → List α
  | [] => []
  | .ins p :: t => p :: insOf t
  | .upd _ :: t => insOf t
  | .rem _ :: t => insOf t

/-- Payloads of the update events, in arrival order. -/
def updOf {α : Type} : List (TxEvent α) → List α
  | [] => []
  | .ins _ :: t => updOf t
  | .upd p :: t => p :: updOf t
  | .rem _ :: t => updOf t

/-- Payloads of the remove events, in arrival order. -/
def remOf {α : Type} : List (TxEvent α) → List α
  | [] => []
  | .ins _ :: t => remOf t
  | .upd _ :: t => remOf t
  | .rem p :: t => p :: remOf t

/-- The contents of the buffer after a sequence of in-transaction lifecycle
events has been appended to a starting store (`none`: not yet attached). -/
def bufferedAfter {α : Type} (os : Option (TxStore α)) (evs : List (TxEvent α)) :
    TxStore α :=
  ⟨(os.getD emptyStore).inserted ++ insOf evs,
    (os.getD emptyStore).updated ++ updOf evs,
    (os.getD emptyStore).removed ++ remOf evs⟩

/-- Does a lifecycle notification report its `isTransactionActive` flag
consistently with the subscriber's own depth counter?  This is the
well-behaved resource manager protocol: the flag is true exactly while the
(outermost) transaction whose starts the subscriber counted is open. -/
def activeOk {α : Type} (q : QueryRunner α) : Notif α → Bool
  | .insert _ r => r == some (decide (1 ≤ depthVal q))
  | .update _ r => r == some (decide (1 ≤ depthVal q))
  | .remove _ r => r == some (decide (1 ≤ depthVal q))
  | .softRemove _ r => r == some (decide (1 ≤ depthVal q))
  | _ => true

/-- A trace is well formed from a state when every lifecycle notification
in it reports the active flag consistently with the depth counter at its
point of arrival. -/
def wellFormedFrom {α : Type} (hk : HookImpl) (fl : Fails α) (q : QueryRunner α) :
    List (Notif α) → Bool
  | [] => true
  | n :: t => activeOk q n && wellFormedFrom hk fl (step hk fl q n).1 t

/-- A failure specification for hooks over `Nat` payloads: the invocation
`afterInsertCommitted 2` throws, everything else succeeds. -/
def failOnIns2 : Fails Nat :=
  fun c => decide (c = Call.insertedC 2)

/-- Hooks that never throw invoke every queued call and succeed. -/
theorem runCalls_noFail {α : Type} (cs : List (Call α)) :
    runCalls noFail cs = (cs, false) := by
  induction cs with
  | nil => rfl
  | cons c cs ih => simp [runCalls, noFail, ih]

/-- Running a concatenated trace runs the pieces in sequence, concatenating
the emitted calls. -/
theorem run_append {α : Type} (hk : HookImpl) (fl : Fails α) (q : QueryRunner α)
    (t s : List (Notif α)) :
    run hk fl q (t ++ s) =
      ((run hk fl (run hk fl q t).1 s).1,
        (run hk fl q t).2.1 ++ (run hk fl (run hk fl q t).1 s).2.1,
        (run hk fl q t).2.2 || (run hk fl (run hk fl q t).1 s).2.2) := by
  induction t generalizing q with
  | nil => simp [run]
  | cons n t ih => simp [run, ih, Bool.or_assoc]

/-- In-transaction lifecycle events are buffered silently: they emit no
hook call and never throw, from any runner state. -/
theorem run_buffer_silent {α : Type} (hk : HookImpl) (fl : Fails α)
    (q : QueryRunner α) (evs : List (TxEvent α)) :
    (run hk fl q (evs.map TxEvent.toNotif)).2 = ([], false) := by
  induction evs generalizing q with
  | nil => rfl
  | cons e evs ih =>
    cases e <;>
      simp [run, step, TxEvent.toNotif, afterInsert, afterUpdate, afterRemove, ih]

/-- A transactional sequence of lifecycle events followed by the outermost
commit (depth 1), with hooks that never throw: the buffered events are
replayed through `drainSeq` and the buffer ends cleared at depth 0. -/
theorem run_tx_commit {α : Type} (hk : HookImpl) (os : Option (TxStore α))
    (evs : List (TxEvent α)) :
    run hk noFail ⟨os, some 1⟩ (evs.map TxEvent.toNotif ++ [Notif.commit true]) =
      (⟨some emptyStore, some 0⟩, drainSeq hk (bufferedAfter os evs), false) := by
  induction evs generalizing os with
  | nil =>
    simp [run, step, afterTransactionCommit, decrementTxDepth, getOrCreateTxDepth,
      getOrCreateTxStore, runCalls_noFail, bufferedAfter, insOf, updOf, remOf]
  | cons e evs ih =>
    cases e with
    | ins p =>
      simp only [List.map_cons, List.cons_append, run, step, TxEvent.toNotif,
        afterInsert, if_pos, getOrCreateTxStore, List.singleton_append,
        List.nil_append, Bool.false_or, Option.getD_some, List.append_eq]
      rw [ih]
      simp [bufferedAfter, insOf, updOf, remOf, List.append_assoc]
    | upd p =>
      simp only [List.map_cons, List.cons_append, run, step, TxEvent.toNotif,
        afterUpdate, if_pos, getOrCreateTxStore, List.singleton_append,
        List.nil_append, Bool.false_or, Option.getD_some, List.append_eq]
      rw [ih]
      simp [bufferedAfter, insOf, updOf, remOf, List.append_assoc]
    | rem p =>
      simp only [List.map_cons, List.cons_append, run, step, TxEvent.toNotif,
        afterRemove, if_pos, getOrCreateTxStore, List.singleton_append,
        List.nil_append, Bool.false_or, Option.getD_some, List.append_eq]
      rw [ih]
      simp [bufferedAfter, insOf, updOf, remOf, List.append_assoc]

/-- A transactional sequence followed by the outermost rollback (depth 1):
no hook call is ever made and the buffer ends cleared at depth 0. -/
theorem run_tx_rollback {α : Type} (hk : HookImpl) (fl : Fails α)
    (os : Option (TxStore α)) (evs : List (TxEvent α)) :
    run hk fl ⟨os, some 1⟩ (evs.map TxEvent.toNotif ++ [Notif.rollback true]) =
      (⟨some emptyStore, some 0⟩, [], false) := by
  induction evs generalizing os with
  | nil =>
    simp [run, step, afterTransactionRollback, decrementTxDepth, getOrCreateTxDepth,
      getOrCreateTxStore]
  | cons e evs ih =>
    cases e <;>
      simp [run, step, TxEvent.toNotif, afterInsert, afterUpdate, afterRemove,
        getOrCreateTxStore, ih]

/-- Claim C1: for every sequence of insert/update/remove lifecycle events
buffered inside one non-nested transaction on a fresh handle (with every
optional hook implemented), no commit handler is invoked before the commit
notification, and on that commit each buffered event is dispatched exactly
once, grouped by category in the fixed order inserted, then updated, then
removed, arrival order preserved within each category, after which the
buffer is empty. -/
theorem commit_replays_buffered_events {α : Type} (evs : List (TxEvent α)) :
    (run allHooks noFail initialRunner
        (Notif.start true :: evs.map TxEvent.toNotif)).2.1 = []
    ∧ run allHooks noFail initialRunner
          (Notif.start true :: (evs.map TxEvent.toNotif ++ [Notif.commit true]))
        = (⟨some emptyStore, some 0⟩,
            (insOf evs).map Call.insertedC ++ (updOf evs).map Call.updatedC
              ++ (remOf evs).map Call.removedC,
            false) := by
  constructor
  · have h := run_buffer_silent allHooks noFail
      (⟨none, some 1⟩ : QueryRunner α) evs
    simp [run, step, afterTransactionStart, incrementTxDepth, initialRunner, h]
  · have h := run_tx_commit allHooks (none : Option (TxStore α)) evs
    simp only [run, step, afterTransactionStart, incrementTxDepth, initialRunner]
    norm_num
    rw [h]
    simp [drainSeq, allHooks, bufferedAfter, emptyStore]

/-- Claim C2: for every sequence of lifecycle events buffered inside a
transaction whose outermost scope is rolled back, no commit handler is ever
invoked (for any set of implemented hooks and any hook failure behaviour),
and the rollback at depth 1 clears the buffer without draining it. -/
theorem rollback_discards_buffered_events {α : Type} (hk : HookImpl)
    (fl : Fails α) (evs : List (TxEvent α)) :
    run hk fl initialRunner
        (Notif.start true :: (evs.map TxEvent.toNotif ++ [Notif.rollback true]))
      = (⟨some emptyStore, some 0⟩, [], false) := by
  have h := run_tx_rollback hk fl (none : Option (TxStore α)) evs
  simp only [run, step, afterTransactionStart, incrementTxDepth, initialRunner]
  norm_num
  rw [h]

/-- Claim C4 (evaluation at the failing input): a soft-remove lifecycle
event inside an active transaction, with the consumer's
`afterSoftRemoveCommitted` hook implemented, is neither buffered nor
replayed on the outermost commit: the base class declares no
`afterSoftRemove` lifecycle method, its store has no soft-removed list, and
its commit replay has no soft-remove loop, so the whole transaction makes
no hook call at all. -/
theorem soft_remove_event_ignored :
    run allHooks noFail initialRunner
        [Notif.start true, Notif.softRemove (5 : Nat) (some true), Notif.commit true]
      = (⟨some emptyStore, some 0⟩, [], false)
    ∧ bufLen (run allHooks noFail initialRunner
        [Notif.start true, Notif.softRemove (5 : Nat) (some true)]).1 = 0 := by
  decide

/-- Claim C6: a lifecycle event observed with no active transaction on its
(present) handle dispatches the corresponding committed hook immediately
(and awaited: a rejection surfaces) when the subclass implements it, is a
no-op when it does not, and appends nothing to any buffer (the runner state
is returned unchanged). -/
theorem no_transaction_immediate_dispatch {α : Type} (hk : HookImpl)
    (fl : Fails α) (q : QueryRunner α) (p : α) :
    afterInsert hk fl q false p
        = (q, (if hk.hasInsert then [Call.insertedC p] else []),
            (if hk.hasInsert then fl (Call.insertedC p) else false))
    ∧ afterUpdate hk fl q false p
        = (q, (if hk.hasUpdate then [Call.updatedC p] else []),
            (if hk.hasUpdate then fl (Call.updatedC p) else false))
    ∧ afterRemove hk fl q false p
        = (q, (if hk.hasRemove then [Call.removedC p] else []),
            (if hk.hasRemove then fl (Call.removedC p) else false)) := by
  obtain ⟨hi, hu, hr, hs⟩ := hk
  cases hi <;> cases hu <;> cases hr <;>
    simp [afterInsert, afterUpdate, afterRemove, immediateDispatch]

/-- Claim C10: a lifecycle event whose query runner is null/undefined takes
the immediate-dispatch path (committed hook invoked when implemented, no-op
otherwise, nothing buffered on any tracked runner), and a start, commit or
rollback notification with an absent runner changes no state and invokes no
hook. -/
theorem absent_runner_behavior {α : Type} (hk : HookImpl) (fl : Fails α)
    (q : QueryRunner α) (p : α) :
    step hk fl q (Notif.insert p none)
        = (q, (if hk.hasInsert then [Call.insertedC p] else []),
            (if hk.hasInsert then fl (Call.insertedC p) else false))
    ∧ step hk fl q (Notif.update p none)
        = (q, (if hk.hasUpdate then [Call.updatedC p] else []),
            (if hk.hasUpdate then fl (Call.updatedC p) else false))
    ∧ step hk fl q (Notif.remove p none)
        = (q, (if hk.hasRemove then [Call.removedC p] else []),
            (if hk.hasRemove then fl (Call.removedC p) else false))
    ∧ step hk fl q (Notif.start false) = (q, [], false)
    ∧ step hk fl q (Notif.commit false) = (q, [], false)
    ∧ step hk fl q (Notif.rollback false) = (q, [], false) := by
  obtain ⟨hi, hu, hr, hs⟩ := hk
  cases hi <;> cases hu <;> cases hr <;>
    simp [step, immediateDispatch]

/-- Claim C3: for nested transactions on one handle, commit handlers never
fire on an inner commit (pre-decrement depth at least 2, so the resulting
depth stays above 0): such a commit emits no call, leaves the buffer
untouched and just decrements the depth.  A rollback notification never
emits a call at any depth (so an outermost rollback suppresses all
dispatch, even when every inner scope previously committed), and
in-transaction lifecycle events emit no call either, so on a nested trace
the only notification that can dispatch is the outermost commit. -/
theorem inner_commit_and_rollback_silent {α : Type} (hk : HookImpl)
    (fl : Fails α) (q : QueryRunner α) (p : α) :
    (2 ≤ depthVal q →
        (step hk fl q (Notif.commit true)).2.1 = []
        ∧ (step hk fl q (Notif.commit true)).1.store = q.store
        ∧ depthVal (step hk fl q (Notif.commit true)).1 = depthVal q - 1)
    ∧ (step hk fl q (Notif.rollback true)).2.1 = []
    ∧ (step hk fl q (Notif.insert p (some true))).2.1 = []
    ∧ (step hk fl q (Notif.update p (some true))).2.1 = []
    ∧ (step hk fl q (Notif.remove p (some true))).2.1 = [] := by
  refine ⟨?_, rfl, rfl, rfl, rfl⟩
  intro h
  simp only [depthVal] at h
  have hd1 : ¬ (q.depth.getD 0 - 1 < 0) := by omega
  have hd2 : ¬ (q.depth.getD 0 - 1 = 0) := by omega
  simp [step, afterTransactionCommit, decrementTxDepth, getOrCreateTxDepth,
    depthVal, hd1, hd2]

/-- Witness for claim C3 at a concrete nested state: depth 2, a non-empty
buffer; the inner commit emits nothing and leaves the buffer in place. -/
theorem inner_commit_and_rollback_silent_w :
    (step allHooks noFail (⟨some ⟨[1], [2], [3]⟩, some 2⟩ : QueryRunner Nat)
        (Notif.commit true)).2.1 = []
    ∧ (step allHooks noFail (⟨some ⟨[1], [2], [3]⟩, some 2⟩ : QueryRunner Nat)
        (Notif.commit true)).1.store
      = (⟨some ⟨[1], [2], [3]⟩, some 2⟩ : QueryRunner Nat).store :=
  ⟨((inner_commit_and_rollback_silent allHooks noFail _ 0).1 (by decide)).1,
    ((inner_commit_and_rollback_silent allHooks noFail _ 0).1 (by decide)).2.1⟩

/-- Claim C5 (counterexample): with `afterInsertCommitted` throwing on
payload 2, the outermost commit of a transaction that buffered inserts 1
and 2 propagates the error, but the buffer is NOT cleared (the clearing
assignments sit after the replay loops with no `try`/`finally`), and a
later commit notification on the same handle dispatches `insertedC 1` a
second time — refuting both "the buffer has been cleared by the time the
error propagates" and "no buffered event can be dispatched a second
time". -/
theorem handler_failure_not_cleared_cex :
    (run allHooks failOnIns2 initialRunner
        [Notif.start true, Notif.insert 1 (some true), Notif.insert 2 (some true),
          Notif.commit true]).2.2 = true
    ∧ (run allHooks failOnIns2 initialRunner
        [Notif.start true, Notif.insert 1 (some true), Notif.insert 2 (some true),
          Notif.commit true]).1.store = some ⟨[1, 2], [], []⟩
    ∧ Call.insertedC 1 ∈ (run allHooks failOnIns2 initialRunner
        [Notif.start true, Notif.insert 1 (some true), Notif.insert 2 (some true),
          Notif.commit true]).2.1
    ∧ Call.insertedC 1 ∈ (step allHooks failOnIns2
        (run allHooks failOnIns2 initialRunner
          [Notif.start true, Notif.insert 1 (some true), Notif.insert 2 (some true),
            Notif.commit true]).1 (Notif.commit true)).2.1 := by
  decide

/-- Claim C5 (amended): when a commit handler throws during the replay
triggered by a commit notification, the error propagates to the caller and
the remaining handlers are skipped, but the buffer is NOT cleared — the
store is returned exactly as it was — so a later commit notification on
the same handle can dispatch buffered events a second time. -/
theorem handler_failure_leaves_buffer {α : Type} (hk : HookImpl) (fl : Fails α)
    (q : QueryRunner α)
    (hthrew : (afterTransactionCommit hk fl q).2.2 = true) :
    (afterTransactionCommit hk fl q).1.store = q.store := by
  rcases q with ⟨os, od⟩
  simp only [afterTransactionCommit] at hthrew ⊢
  split_ifs at hthrew ⊢ with h1 h2
  cases os with
  | none =>
    exfalso
    simp [decrementTxDepth, getOrCreateTxStore, drainSeq, emptyStore,
      runCalls] at h2
  | some st =>
    simp [decrementTxDepth, getOrCreateTxStore]

/-- Witness for the amended claim C5: a depth-1 runner with inserts 1 and 2
buffered and a hook that throws on payload 2 keeps its full buffer. -/
theorem handler_failure_leaves_buffer_w :
    (afterTransactionCommit allHooks failOnIns2
        (⟨some ⟨[1, 2], [], []⟩, some 1⟩ : QueryRunner Nat)).1.store
      = (⟨some ⟨[1, 2], [], []⟩, some 1⟩ : QueryRunner Nat).store :=
  handler_failure_leaves_buffer allHooks failOnIns2 _ (by decide)

/-- One notification keeps the depth counter non-negative. -/
theorem depthVal_step_nonneg {α : Type} (hk : HookImpl) (fl : Fails α)
    (q : QueryRunner α) (n : Notif α) (h : 0 ≤ depthVal q) :
    0 ≤ depthVal (step hk fl q n).1 := by
  cases n with
  | start pr =>
    cases pr
    · exact h
    · simp only [depthVal] at h ⊢
      simp [step, afterTransactionStart, incrementTxDepth]
      omega
  | insert p r =>
    rcases r with _ | a
    · exact h
    · cases a
      · exact h
      · simpa [step, afterInsert, depthVal] using h
  | update p r =>
    rcases r with _ | a
    · exact h
    · cases a
      · exact h
      · simpa [step, afterUpdate, depthVal] using h
  | remove p r =>
    rcases r with _ | a
    · exact h
    · cases a
      · exact h
      · simpa [step, afterRemove, depthVal] using h
  | softRemove p r => exact h
  | commit pr =>
    cases pr
    · exact h
    · simp only [step, afterTransactionCommit, decrementTxDepth,
        getOrCreateTxDepth, getOrCreateTxStore, depthVal]
      split_ifs <;> simp <;> omega
  | rollback pr =>
    cases pr
    · exact h
    · simp only [step, afterTransactionRollback, decrementTxDepth,
        getOrCreateTxDepth, getOrCreateTxStore, depthVal]
      split_ifs <;> simp <;> omega

/-- From a state with non-negative depth, every trace keeps the depth
non-negative. -/
theorem depthVal_run_nonneg {α : Type} (hk : HookImpl) (fl : Fails α)
    (q : QueryRunner α) (t : List (Notif α)) (h : 0 ≤ depthVal q) :
    0 ≤ depthVal (run hk fl q t).1 := by
  induction t generalizing q with
  | nil => exact h
  | cons n t ih =>
    simp only [run]
    exact ih _ (depthVal_step_nonneg hk fl q n h)

/-- Claim C7: for every sequence of notifications on a fresh handle —
spurious extra commit/rollback notifications included — the per-handle
depth counter never goes negative. -/
theorem depth_nonneg {α : Type} (hk : HookImpl) (fl : Fails α)
    (t : List (Notif α)) :
    0 ≤ depthVal (run hk fl initialRunner t).1 :=
  depthVal_run_nonneg hk fl initialRunner t (le_refl 0)

/-- The state after a trace extended by one notification is the state after
stepping the last notification from the state after the trace. -/
theorem run_snoc_state {α : Type} (hk : HookImpl) (fl : Fails α)
    (q : QueryRunner α) (t : List (Notif α)) (n : Notif α) :
    (run hk fl q (t ++ [n])).1 = (step hk fl (run hk fl q t).1 n).1 := by
  simp [run_append, run]

/-- In a well-formed trace, the last notification reports its active flag
consistently with the depth at its point of arrival. -/
theorem wellFormed_last {α : Type} (hk : HookImpl) (fl : Fails α)
    (q : QueryRunner α) (t : List (Notif α)) (n : Notif α)
    (h : wellFormedFrom hk fl q (t ++ [n]) = true) :
    activeOk (run hk fl q t).1 n = true := by
  induction t generalizing q with
  | nil =>
    simp only [List.nil_append, wellFormedFrom, Bool.and_eq_true] at h
    exact h.1
  | cons m t ih =>
    simp only [List.cons_append, wellFormedFrom, Bool.and_eq_true] at h
    simpa [run] using ih (step hk fl q m).1 h.2

/-- A commit notification never makes the buffer larger. -/
theorem bufLen_commit_le {α : Type} (hk : HookImpl) (fl : Fails α)
    (q : QueryRunner α) :
    bufLen (afterTransactionCommit hk fl q).1 ≤ bufLen q := by
  rcases q with ⟨os, od⟩
  simp only [afterTransactionCommit]
  split_ifs with h1 h2
  · cases os <;> simp [decrementTxDepth, getOrCreateTxStore, bufLen, emptyStore]
  · cases os <;> simp [decrementTxDepth, getOrCreateTxStore, bufLen, emptyStore]
  · simp [decrementTxDepth, bufLen]

/-- A rollback notification never makes the buffer larger. -/
theorem bufLen_rollback_le {α : Type} (q : QueryRunner α) :
    bufLen (afterTransactionRollback q) ≤ bufLen q := by
  rcases q with ⟨os, od⟩
  simp only [afterTransactionRollback]
  split_ifs with h1
  · cases os <;> simp [decrementTxDepth, getOrCreateTxStore, bufLen, emptyStore]
  · simp [decrementTxDepth, bufLen]

/-- Claim C8: on a well-formed trace (the resource manager reports the
transaction-active flag consistently with the subscriber's depth counter,
which is how every reachable state of a handle arises), the buffer can only
grow at a notification arriving while the depth is at least 1; in
particular, once the depth has returned to 0 no event appends to the
buffer until a new transaction raises the depth again. -/
theorem buffer_appends_require_depth {α : Type} (hk : HookImpl) (fl : Fails α)
    (t : List (Notif α)) (n : Notif α)
    (hwf : wellFormedFrom hk fl initialRunner (t ++ [n]) = true)
    (hgrow : bufLen (run hk fl initialRunner (t ++ [n])).1
        > bufLen (run hk fl initialRunner t).1) :
    1 ≤ depthVal (run hk fl initialRunner t).1 := by
  have hact := wellFormed_last hk fl initialRunner t n hwf
  rw [run_snoc_state] at hgrow
  set q0 := (run hk fl initialRunner t).1 with hq0
  cases n with
  | start pr =>
    cases pr <;> exact absurd hgrow (lt_irrefl _)
  | insert p r =>
    simp only [activeOk, beq_iff_eq] at hact
    subst hact
    cases hd : decide (1 ≤ depthVal q0) with
    | true => exact of_decide_eq_true hd
    | false =>
      rw [hd] at hgrow
      exact absurd hgrow (lt_irrefl _)
  | update p r =>
    simp only [activeOk, beq_iff_eq] at hact
    subst hact
    cases hd : decide (1 ≤ depthVal q0) with
    | true => exact of_decide_eq_true hd
    | false =>
      rw [hd] at hgrow
      exact absurd hgrow (lt_irrefl _)
  | remove p r =>
    simp only [activeOk, beq_iff_eq] at hact
    subst hact
    cases hd : decide (1 ≤ depthVal q0) with
    | true => exact of_decide_eq_true hd
    | false =>
      rw [hd] at hgrow
      exact absurd hgrow (lt_irrefl _)
  | softRemove p r =>
    exact absurd hgrow (lt_irrefl _)
  | commit pr =>
    cases pr
    · exact absurd hgrow (lt_irrefl _)
    · have hle := bufLen_commit_le hk fl q0
      simp only [step] at hgrow
      omega
  | rollback pr =>
    cases pr
    · exact absurd hgrow (lt_irrefl _)
    · have hle := bufLen_rollback_le q0
      simp only [step, bufLen] at hgrow hle
      omega

/-- Witness for claim C8: a start followed by an insert at depth 1 is well
formed, grows the buffer, and the theorem concludes the depth was at least
1 when the insert arrived. -/
theorem buffer_appends_require_depth_w :
    wellFormedFrom allHooks noFail initialRunner
        ([Notif.start true] ++ [Notif.insert (7 : Nat) (some true)]) = true
    ∧ 1 ≤ depthVal (run allHooks noFail initialRunner
        ([Notif.start true] : List (Notif Nat))).1 :=
  ⟨by decide,
    buffer_appends_require_depth allHooks noFail [Notif.start true]
      (Notif.insert 7 (some true)) (by decide) (by decide)⟩

/-- Claim C9 (counterexample): a handle whose depth is 0 (it never saw a
start, but the resource manager reported the transaction as active when
insert 1 arrived, so the event was buffered) receives a commit
notification; the claim says no dispatch is attempted, but the code enters
the outermost-commit branch and invokes `afterInsertCommitted 1`. -/
theorem spurious_commit_dispatches_cex :
    depthVal (run allHooks noFail initialRunner
        [Notif.insert (1 : Nat) (some true)]).1 = 0
    ∧ (step allHooks noFail
        (run allHooks noFail initialRunner
          [Notif.insert (1 : Nat) (some true)]).1 (Notif.commit true)).2.1
      = [Call.insertedC 1] := by
  decide

/-- Claim C9 (amended): when a commit or rollback notification arrives for
a handle whose depth is already 0, the depth is clamped at 0 rather than
going negative, but the notification is treated as an outermost one: the
commit replays whatever the buffer holds (so it invokes no handler exactly
when the buffer is empty, e.g. after a previous drain) and clears it when
no handler throws, and the rollback clears the buffer; dispatch and
clearing are attempted, not skipped. -/
theorem spurious_commit_clamps_and_drains {α : Type} (hk : HookImpl)
    (fl : Fails α) (q : QueryRunner α) (h0 : depthVal q = 0) :
    depthVal (afterTransactionCommit hk fl q).1 = 0
    ∧ (afterTransactionCommit hk fl q).2.1
        = (runCalls fl (drainSeq hk (q.store.getD emptyStore))).1
    ∧ ((afterTransactionCommit hk fl q).2.2 = false →
        (afterTransactionCommit hk fl q).1.store = some emptyStore)
    ∧ afterTransactionRollback q = ⟨some emptyStore, some 0⟩ := by
  rcases q with ⟨os, od⟩
  simp only [depthVal] at h0
  simp only [afterTransactionCommit, afterTransactionRollback,
    decrementTxDepth, getOrCreateTxDepth, getOrCreateTxStore, depthVal, h0]
  norm_num
  cases hr : (runCalls fl (drainSeq hk (os.getD emptyStore))).2 <;> simp [hr]

/-- Witness for the amended claim C9: a handle with a buffered insert and
no depth field receives a commit; the depth stays clamped at 0. -/
theorem spurious_commit_clamps_and_drains_w :
    depthVal (afterTransactionCommit allHooks noFail
        (⟨some ⟨[9], [], []⟩, none⟩ : QueryRunner Nat)).1 = 0 :=
  (spurious_commit_clamps_and_drains allHooks noFail _ (by decide)).1

end TxSub
